import Mathlib

/-!
Verification of the fund-manager orchestrator core
(`src/fund_manager/fund_manager.py`) and the shared JSON-extraction helper
(`extract_json_from_text` in `financial_analyst.py`, `portfolio_architect.py`,
`risk_manager.py`).

The shallow embedding models:
* the decoded server-sent-event records as an `EventDict` (the fields the
  orchestrator reads via `.get`), with JSON decoding of a line's payload given
  by an explicit oracle `String → Option EventDict` (the `json` library is
  external to the repository);
* `AgentClient.call_agent_with_streaming` as a recursion over the list of raw
  stream lines, forwarding every decoded record to the writer (collected as a
  list) and tracking the last `streaming_complete` result;
* `AgentClient.save_to_memory` as a function returning a `MemoryOutcome`
  (skipped / failed-and-caught / saved record), with the Memory Service's
  possible exception given by a boolean flag;
* the LangGraph chain `financial → portfolio → risk → END` of `create_graph`
  as sequential composition of the three node functions, concatenating the
  events each node writes;
* `FundManager.run_consultation` including the generated
  `session_{datetime.now().strftime('%Y%m%d_%H%M%S')}` identifier, with the
  wall clock modelled by a `PyDatetime` record and the strftime format by
  zero-padded decimal rendering.
-/

namespace FundManagerSpec

/-- A decoded JSON record (Python dict), restricted to the fields that the
orchestrator and its caller ever read via `.get`: `type`, `agent_name`,
`session_id`, `result`. All remaining key/value pairs are abstracted into the
opaque `payload` string so that distinct records stay distinguishable. A field
of value `none` models both an absent key and a key bound to Python `None`
(indistinguishable through `.get`). -/
structure EventDict where
  type : Option String
  agent_name : Option String
  session_id : Option String
  result : Option String
  payload : String
deriving DecidableEq, Repr

/-- The dict `{"type": "node_start", "agent_name": agent, "session_id": sid}`
written by each node function before invoking its agent. -/
def nodeStartEvent (agent sid : String) : EventDict :=
  { type := some "node_start", agent_name := some agent, session_id := some sid,
    result := none, payload := "" }

/-- The dict `{"type": "node_complete", "agent_name": agent, "session_id": sid,
"result": result}` written by each node function after its agent call. -/
def nodeCompleteEvent (agent sid : String) (result : Option String) : EventDict :=
  { type := some "node_complete", agent_name := some agent, session_id := some sid,
    result := result, payload := "" }

/-- Python's `line.startswith("data: ")`, on the character-list view of
strings (core `String.startsWith` goes through `Substring` byte positions,
which the kernel does not reduce). -/
def pyStartsWith (line pre : String) : Bool :=
  pre.data.isPrefixOf line.data

/-- The loop body of `AgentClient.call_agent_with_streaming`
(`fund_manager.py` lines 86-100): for each raw line of the streamed HTTP
response, if the line is non-empty and starts with `"data: "`, the rest of the
line is JSON-decoded; on decode failure (`json.JSONDecodeError`) the line is
skipped and the loop continues; on success the record is forwarded to the
writer and, if its `type` is `"streaming_complete"`, `final_result` is set to
its `result` field. Returns (writer calls in order, final_result). -/
def streamLoop (jsonDecode : String → Option EventDict) :
    List String → Option String → List EventDict × Option String
  | [], final_result => ([], final_result)
  | line :: rest, final_result =>
    if line = "" then streamLoop jsonDecode rest final_result
    else if pyStartsWith line "data: " then
      match jsonDecode (line.drop 6) with
      | some event_data =>
        let final' := if event_data.type = some "streaming_complete" then
            event_data.result
          else final_result
        let out := streamLoop jsonDecode rest final'
        (event_data :: out.1, out.2)
      | none => streamLoop jsonDecode rest final_result
    else streamLoop jsonDecode rest final_result

/-- `AgentClient.call_agent_with_streaming` (`fund_manager.py` lines 78-100):
`final_result` starts as `None`; the function returns the list of events
forwarded to the writer together with the final result. -/
def call_agent_with_streaming (jsonDecode : String → Option EventDict)
    (lines : List String) : List EventDict × Option String :=
  streamLoop jsonDecode lines none

/-- A Python value as it flows through the orchestrator state: `None`, a
string, or a dict identified by its `json.dumps` serialization (the
orchestrator never looks inside the user-input dict). -/
inductive Val where
  | vNone
  | vStr (s : String)
  | vDict (serialized : String)
deriving DecidableEq, Repr

/-- Python truthiness of the `Optional[str]` values tested by
`if not self.memory_id or not agent_result` and `if not session_id`:
`None` and the empty string are falsy. -/
def pyTruthy : Option String → Bool
  | none => false
  | some s => s ≠ ""

/-- The `input_text` computed in `save_to_memory` (line 108):
`json.dumps(user_input, ensure_ascii=False) if isinstance(user_input, dict)
else str(user_input)`; Python's `str(None)` is `"None"`. -/
def inputText : Val → String
  | .vDict s => s
  | .vStr s => s
  | .vNone => "None"

/-- The arguments of the `memory_client.create_event` call (lines 110-118). -/
structure MemoryRecord where
  memory_id : String
  actor_id : String
  session_id : String
  messages : List (String × String)
deriving DecidableEq, Repr

/-- Outcome of one `save_to_memory` call: returned early without calling
`create_event`; called `create_event` which raised (caught and logged,
line 122-123); or successfully appended a record. -/
inductive MemoryOutcome where
  | skipped
  | failed
  | saved (record : MemoryRecord)
deriving DecidableEq, Repr

/-- `AgentClient.save_to_memory` (`fund_manager.py` lines 102-123). The
Memory Service is external; whether its `create_event` call raises is an
input (`service_raises`). Any exception is caught inside the function, so
every call returns a `MemoryOutcome` — nothing propagates. -/
def save_to_memory (memory_id : Option String) (session_id agent_type : String)
    (user_input : Val) (agent_result : Option String) (service_raises : Bool) :
    MemoryOutcome :=
  if ¬ pyTruthy memory_id ∨ ¬ pyTruthy agent_result then .skipped
  else if service_raises then .failed
  else
    .saved
      { memory_id := memory_id.getD ""
        actor_id := "fund_user"
        session_id := session_id
        messages :=
          [ (agent_type ++ " analysis request: " ++ inputText user_input, "USER"),
            (agent_type ++ " result: " ++ (agent_result.getD ""), "ASSISTANT") ] }

/-- The `FundManagementState` TypedDict (lines 27-32). The three analysis
fields start as `""` and are overwritten with the stage result, which may be
Python `None` when the agent stream produced no `streaming_complete`. -/
structure FundManagementState where
  user_input : Val
  session_id : String
  financial_analysis : Val
  portfolio_recommendation : Val
  risk_analysis : Val
deriving DecidableEq, Repr

/-- Conversion of a stage result (`Optional[str]`) to the `Val` stored into
the state field. -/
def valOfResult : Option String → Val
  | none => .vNone
  | some s => .vStr s

/-- The external environment of one consultation: the JSON decoder, the
resolved memory id, the raw line stream each of the three remote agents
returns for this consultation, and whether each stage's memory write raises. -/
structure Env where
  jsonDecode : String → Option EventDict
  memory_id : Option String
  financial_lines : List String
  portfolio_lines : List String
  risk_lines : List String
  financial_mem_raises : Bool
  portfolio_mem_raises : Bool
  risk_mem_raises : Bool

/-- What one node function produces: the events it writes to the stream (in
order), the updated state, the `user_input` argument it passed to
`save_to_memory`, the agent result, and the memory outcome. -/
structure NodeOutput where
  events : List EventDict
  state : FundManagementState
  memory_input : Val
  result : Option String
  memory : MemoryOutcome

/-- `financial_node` (lines 129-143): write `node_start`, invoke the agent
(forwarding its events), write `node_complete` with the result, save to
memory with the external user input, store the result. -/
def financial_node (env : Env) (state : FundManagementState) : NodeOutput :=
  let out := call_agent_with_streaming env.jsonDecode env.financial_lines
  { events := nodeStartEvent "financial" state.session_id ::
      (out.1 ++ [nodeCompleteEvent "financial" state.session_id out.2])
    state := { state with financial_analysis := valOfResult out.2 }
    memory_input := state.user_input
    result := out.2
    memory := save_to_memory env.memory_id state.session_id "financial"
      state.user_input out.2 env.financial_mem_raises }

/-- `portfolio_node` (lines 145-159): same shape, with
`state["financial_analysis"]` as the agent input and memory input. -/
def portfolio_node (env : Env) (state : FundManagementState) : NodeOutput :=
  let out := call_agent_with_streaming env.jsonDecode env.portfolio_lines
  { events := nodeStartEvent "portfolio" state.session_id ::
      (out.1 ++ [nodeCompleteEvent "portfolio" state.session_id out.2])
    state := { state with portfolio_recommendation := valOfResult out.2 }
    memory_input := state.financial_analysis
    result := out.2
    memory := save_to_memory env.memory_id state.session_id "portfolio"
      state.financial_analysis out.2 env.portfolio_mem_raises }

/-- `risk_node` (lines 161-175): same shape, with
`state["portfolio_recommendation"]` as the agent input and memory input. -/
def risk_node (env : Env) (state : FundManagementState) : NodeOutput :=
  let out := call_agent_with_streaming env.jsonDecode env.risk_lines
  { events := nodeStartEvent "risk" state.session_id ::
      (out.1 ++ [nodeCompleteEvent "risk" state.session_id out.2])
    state := { state with risk_analysis := valOfResult out.2 }
    memory_input := state.portfolio_recommendation
    result := out.2
    memory := save_to_memory env.memory_id state.session_id "risk"
      state.portfolio_recommendation out.2 env.risk_mem_raises }

/-- Output of one full traversal of the compiled graph. -/
structure GraphOutput where
  events : List EventDict
  state : FundManagementState
  financial : NodeOutput
  portfolio : NodeOutput
  risk : NodeOutput

/-- One run of the graph built by `create_graph` (lines 179-191): the
unconditional chain `financial → portfolio → risk → END`, streamed with
`stream_mode="custom"`, which yields every writer call of every node in
execution order. -/
def create_graph_run (env : Env) (state0 : FundManagementState) : GraphOutput :=
  let o1 := financial_node env state0
  let o2 := portfolio_node env o1.state
  let o3 := risk_node env o2.state
  { events := o1.events ++ o2.events ++ o3.events
    state := o3.state
    financial := o1
    portfolio := o2
    risk := o3 }

/-- A `datetime.datetime` value as read by `strftime('%Y%m%d_%H%M%S')`:
whole-second wall-clock fields (Python's `datetime.now()` carries
microseconds, but the format string discards them). -/
structure PyDatetime where
  year : Nat
  month : Nat
  day : Nat
  hour : Nat
  minute : Nat
  second : Nat
deriving DecidableEq, Repr

/-- Range constraints guaranteed by `datetime.datetime` for each field. -/
def PyDatetime.valid (dt : PyDatetime) : Prop :=
  1 ≤ dt.year ∧ dt.year ≤ 9999 ∧ 1 ≤ dt.month ∧ dt.month ≤ 12 ∧
    1 ≤ dt.day ∧ dt.day ≤ 31 ∧ dt.hour ≤ 23 ∧ dt.minute ≤ 59 ∧ dt.second ≤ 59

instance (dt : PyDatetime) : Decidable dt.valid := by
  unfold PyDatetime.valid; infer_instance

/-- Two decimal digits, zero padded (`%m`, `%d`, `%H`, `%M`, `%S`). -/
def pad2 (n : Nat) : List Char :=
  [Nat.digitChar (n / 10 % 10), Nat.digitChar (n % 10)]

/-- Four decimal digits, zero padded (`%Y` for years below 10000). -/
def pad4 (n : Nat) : List Char :=
  [Nat.digitChar (n / 1000 % 10), Nat.digitChar (n / 100 % 10),
   Nat.digitChar (n / 10 % 10), Nat.digitChar (n % 10)]

/-- `dt.strftime('%Y%m%d_%H%M%S')`. -/
def strftimeCompact (dt : PyDatetime) : String :=
  String.mk (pad4 dt.year ++ pad2 dt.month ++ pad2 dt.day ++ ['_'] ++
    pad2 dt.hour ++ pad2 dt.minute ++ pad2 dt.second)

/-- The generated identifier
`f"session_{datetime.now().strftime('%Y%m%d_%H%M%S')}"` (line 201). -/
def generatedSessionId (now : PyDatetime) : String :=
  "session_" ++ strftimeCompact now

/-- Days elapsed since 0000-03-01 of the proleptic Gregorian calendar for a
civil date, by the standard era/year-of-era/day-of-year decomposition. Used
only to express when two wall-clock datetimes denote instants a given number
of seconds apart; any fixed epoch works for that, so the Unix shift is
omitted and the count stays in `Nat`. -/
def civilDays (y m d : Nat) : Nat :=
  let yAdj := if m ≤ 2 then y - 1 else y
  let era := yAdj / 400
  let yoe := yAdj - era * 400
  let mp := if m ≤ 2 then m + 9 else m - 3
  let doy := (153 * mp + 2) / 5 + d - 1
  let doe := yoe * 365 + yoe / 4 - yoe / 100 + doy
  era * 146097 + doe

/-- Seconds elapsed since the `civilDays` epoch at a wall-clock datetime. -/
def epochSeconds (dt : PyDatetime) : Nat :=
  civilDays dt.year dt.month dt.day * 86400 +
    dt.hour * 3600 + dt.minute * 60 + dt.second

/-- The session id actually used: the caller's when truthy (`if not
session_id` on line 200 regenerates on `None` and on `""`), else the
generated one. -/
def effectiveSessionId (session_id : Option String) (now : PyDatetime) : String :=
  if pyTruthy session_id then session_id.getD "" else generatedSessionId now

/-- `FundManager.run_consultation` (lines 197-214): resolve the session id,
build the initial state (analysis fields `""`), stream the graph. -/
def run_consultation (env : Env) (user_input : Val)
    (session_id : Option String) (now : PyDatetime) : GraphOutput :=
  create_graph_run env
    { user_input := user_input
      session_id := effectiveSessionId session_id now
      financial_analysis := .vStr ""
      portfolio_recommendation := .vStr ""
      risk_analysis := .vStr "" }

/-- Index of the first occurrence of `c`, as Python's `str.find`
(without the `-1` encoding; `none` for absent). -/
def findChar : List Char → Char → Option Nat
  | [], _ => none
  | a :: rest, c =>
    if a = c then some 0 else (findChar rest c).map (· + 1)

/-- Index of the last occurrence of `c`, as Python's `str.rfind`
(without the `-1` encoding; `none` for absent). -/
def rfindChar : List Char → Char → Option Nat
  | [], _ => none
  | a :: rest, c =>
    match rfindChar rest c with
    | some i => some (i + 1)
    | none => if a = c then some 0 else none

/-- Python's `text.find(c)`: first index or `-1`. -/
def pyFind (s : String) (c : Char) : Int :=
  match findChar s.data c with
  | some i => (i : Int)
  | none => -1

/-- Python's `text.rfind(c)`: last index or `-1`. -/
def pyRFind (s : String) (c : Char) : Int :=
  match rfindChar s.data c with
  | some i => (i : Int)
  | none => -1

/-- The string branch of `extract_json_from_text` (identical in
`financial_analyst.py` lines 22-33, `portfolio_architect.py` lines 25-36,
`risk_manager.py` lines 26-37): `start_idx = text.find('{')`,
`end_idx = text.rfind('}') + 1`; on `start_idx != -1 and end_idx > start_idx`
return the slice `text[start_idx:end_idx]`, else the input unchanged. -/
def extractFromString (text_content : String) : String :=
  let start_idx := pyFind text_content '{'
  let end_idx := pyRFind text_content '}' + 1
  if start_idx ≠ -1 ∧ end_idx > start_idx then
    String.mk ((text_content.data.drop start_idx.toNat).take
      (end_idx - start_idx).toNat)
  else text_content

/-- A Python value passed to `extract_json_from_text`: a string, or any
non-string object (kept opaque). -/
inductive PyVal where
  | pstr (s : String)
  | other (obj : String)
deriving DecidableEq, Repr

/-- `extract_json_from_text`: non-string inputs are returned unchanged
(`if not isinstance(text_content, str): return text_content`), strings go
through the brace-span slice. -/
def extract_json_from_text : PyVal → PyVal
  | .other obj => .other obj
  | .pstr s => .pstr (extractFromString s)

/-- The remote event vocabulary of the Agent Invocation Service streams
(spec section 6): `text_chunk`, `tool_use`, `tool_result`,
`streaming_complete`, `error`. -/
def remoteVocab : List String :=
  ["text_chunk", "tool_use", "tool_result", "streaming_complete", "error"]

/-- A forwarded event list drawn from the remote vocabulary. -/
def usesRemoteVocabulary (events : List EventDict) : Prop :=
  ∀ d ∈ events, d.type ∈ remoteVocab.map some

instance (events : List EventDict) : Decidable (usesRemoteVocabulary events) := by
  unfold usesRemoteVocabulary; infer_instance

/-- Whether an event is one of the orchestrator's stage-boundary markers. -/
def isNodeBoundary (e : EventDict) : Bool :=
  e.type == some "node_start" || e.type == some "node_complete"

/-- A memory outcome after forcing the Memory Service write to raise: an
outcome that would have saved now fails; a skipped write stays skipped. -/
def markFailed : MemoryOutcome → MemoryOutcome
  | .saved _ => .failed
  | o => o

/-- The environment with the three memory-failure flags replaced. -/
def withMemFlags (env : Env) (f1 f2 f3 : Bool) : Env :=
  { env with
    financial_mem_raises := f1
    portfolio_mem_raises := f2
    risk_mem_raises := f3 }

/-- A remote `error` record, as decoded from a stream line. -/
def errorRecord : EventDict :=
  { type := some "error", agent_name := none, session_id := none,
    result := none, payload := "stage failure" }

/-- A remote `streaming_complete` record carrying result `"RES"`. -/
def completeRecord : EventDict :=
  { type := some "streaming_complete", agent_name := none, session_id := none,
    result := some "RES", payload := "" }

/-- A remote `text_chunk` record. -/
def chunkRecord : EventDict :=
  { type := some "text_chunk", agent_name := none, session_id := none,
    result := none, payload := "hello" }

/-- A concrete JSON decoder for closed-instance checks: payload `"E"` decodes
to the error record, `"C"` to the completion record, `"T"` to the text chunk,
and everything else fails to decode. -/
def decodeFixture : String → Option EventDict :=
  fun s =>
    if s = "E" then some errorRecord
    else if s = "C" then some completeRecord
    else if s = "T" then some chunkRecord
    else none

/-- A consultation environment in which the portfolio agent emits one `error`
event and never completes, while financial and risk complete normally. -/
def envPortfolioError : Env :=
  { jsonDecode := decodeFixture
    memory_id := some "mem"
    financial_lines := ["data: C"]
    portfolio_lines := ["data: E"]
    risk_lines := ["data: C"]
    financial_mem_raises := false
    portfolio_mem_raises := false
    risk_mem_raises := false }

/-- A consultation environment in which all three agents complete. -/
def envAllComplete : Env :=
  { jsonDecode := decodeFixture
    memory_id := some "mem"
    financial_lines := ["data: T", "data: C"]
    portfolio_lines := ["data: C"]
    risk_lines := ["data: C"]
    financial_mem_raises := false
    portfolio_mem_raises := false
    risk_mem_raises := false }

/-- A fixed wall-clock instant for closed-instance checks. -/
def nowFixture : PyDatetime := ⟨2026, 10, 12, 9, 30, 0⟩

/-!
Helper lemmas: characterizations of `findChar`/`rfindChar` (first and last
occurrence), injectivity of the zero-padded timestamp format, and the
behaviour of the streaming loop under concatenation, missing completion
events, and undecodable lines.
-/

theorem findChar_eq_none_iff (l : List Char) (c : Char) :
    findChar l c = none ↔ c ∉ l := by
  induction l with
  | nil => simp [findChar]
  | cons a rest ih =>
    by_cases h : a = c
    · subst h; simp [findChar]
    · simp [findChar, h, ih, Ne.symm h]

theorem findChar_getElem {l : List Char} {c : Char} {i : Nat}
    (h : findChar l c = some i) : l[i]? = some c := by
  induction l generalizing i with
  | nil => simp [findChar] at h
  | cons a rest ih =>
    by_cases ha : a = c
    · subst ha
      simp [findChar] at h
      subst h
      simp
    · simp only [findChar, if_neg ha] at h
      rcases Option.map_eq_some'.mp h with ⟨j, hj, rfl⟩
      simpa using ih hj

theorem findChar_not_mem_take {l : List Char} {c : Char} {i : Nat}
    (h : findChar l c = some i) : c ∉ l.take i := by
  induction l generalizing i with
  | nil => simp
  | cons a rest ih =>
    by_cases ha : a = c
    · subst ha
      simp [findChar] at h
      subst h
      simp
    · simp only [findChar, if_neg ha] at h
      rcases Option.map_eq_some'.mp h with ⟨j, hj, rfl⟩
      rw [List.take_succ_cons]
      intro hmem
      rcases List.mem_cons.mp hmem with h1 | h1
      · exact ha h1.symm
      · exact ih hj h1

theorem findChar_min {l : List Char} {c : Char} {i : Nat}
    (hi : l[i]? = some c) : ∃ f, findChar l c = some f ∧ f ≤ i := by
  induction l generalizing i with
  | nil => simp at hi
  | cons a rest ih =>
    by_cases ha : a = c
    · subst ha
      exact ⟨0, by simp [findChar], Nat.zero_le _⟩
    · cases i with
      | zero =>
        simp at hi
        exact absurd hi ha
      | succ i =>
        have hi' : rest[i]? = some c := by simpa using hi
        rcases ih hi' with ⟨f, hf, hle⟩
        exact ⟨f + 1, by simp [findChar, ha, hf], Nat.succ_le_succ hle⟩

theorem rfindChar_eq_none_iff (l : List Char) (c : Char) :
    rfindChar l c = none ↔ c ∉ l := by
  induction l with
  | nil => simp [rfindChar]
  | cons a rest ih =>
    rw [rfindChar]
    cases hr : rfindChar rest c with
    | some i =>
      simp only []
      constructor
      · intro h; exact absurd h (by simp)
      · intro h
        exact absurd ((ih).mpr (fun hm => h (List.mem_cons_of_mem a hm))) (by simp [hr])
    | none =>
      by_cases ha : a = c
      · subst ha; simp
      · simp [ha, List.mem_cons, Ne.symm ha, ← ih, hr]

theorem rfindChar_getElem {l : List Char} {c : Char} {j : Nat}
    (h : rfindChar l c = some j) : l[j]? = some c := by
  induction l generalizing j with
  | nil => simp [rfindChar] at h
  | cons a rest ih =>
    rw [rfindChar] at h
    cases hr : rfindChar rest c with
    | some i =>
      rw [hr] at h
      simp only [Option.some.injEq] at h
      subst h
      simpa using ih hr
    | none =>
      rw [hr] at h
      by_cases ha : a = c
      · subst ha
        simp at h
        subst h
        simp
      · simp [ha] at h

theorem rfindChar_not_mem_drop {l : List Char} {c : Char} {j : Nat}
    (h : rfindChar l c = some j) : c ∉ l.drop (j + 1) := by
  induction l generalizing j with
  | nil => simp
  | cons a rest ih =>
    rw [rfindChar] at h
    cases hr : rfindChar rest c with
    | some i =>
      rw [hr] at h
      simp only [Option.some.injEq] at h
      subst h
      simpa using ih hr
    | none =>
      rw [hr] at h
      by_cases ha : a = c
      · subst ha
        simp at h
        subst h
        simpa using (rfindChar_eq_none_iff rest _).mp hr
      · simp [ha] at h

theorem rfindChar_max {l : List Char} {c : Char} {i : Nat}
    (hi : l[i]? = some c) : ∃ j, rfindChar l c = some j ∧ i ≤ j := by
  induction l generalizing i with
  | nil => simp at hi
  | cons a rest ih =>
    rw [rfindChar]
    cases hr : rfindChar rest c with
    | some k =>
      refine ⟨k + 1, rfl, ?_⟩
      cases i with
      | zero => exact Nat.zero_le _
      | succ i =>
        have hi' : rest[i]? = some c := by simpa using hi
        rcases ih hi' with ⟨j, hj, hle⟩
        rw [hr] at hj
        simp only [Option.some.injEq] at hj
        subst hj
        exact Nat.succ_le_succ hle
    | none =>
      have hcnm : c ∉ rest := (rfindChar_eq_none_iff rest c).mp hr
      cases i with
      | zero =>
        simp at hi
        subst hi
        simp
      | succ i =>
        have hi' : rest[i]? = some c := by simpa using hi
        exact absurd (List.getElem?_mem hi') hcnm


theorem extract_brace_span (s : String)
    (h : ∃ i j : Nat, i < j ∧ s.data[i]? = some '{' ∧ s.data[j]? = some '}') :
    ∃ pre core post : List Char,
      s.data = pre ++ core ++ post ∧
      extract_json_from_text (.pstr s) = .pstr (String.mk core) ∧
      '{' ∉ pre ∧ '}' ∉ post ∧
      core.head? = some '{' ∧ core.getLast? = some '}' := by
  rcases h with ⟨i, j, hij, hi, hj⟩
  rcases findChar_min hi with ⟨f, hf, hfi⟩
  rcases rfindChar_max hj with ⟨l', hl, hjl⟩
  have hfl : f < l' := lt_of_le_of_lt hfi (lt_of_lt_of_le hij hjl)
  have hflen : f < s.data.length := (List.getElem?_eq_some_iff.mp (findChar_getElem hf)).1
  have hllen : l' < s.data.length := (List.getElem?_eq_some_iff.mp (rfindChar_getElem hl)).1
  refine ⟨s.data.take f, (s.data.drop f).take (l' + 1 - f), s.data.drop (l' + 1),
    ?_, ?_, ?_, ?_, ?_, ?_⟩
  · conv_lhs => rw [← List.take_append_drop f s.data]
    rw [List.append_assoc]
    congr 1
    conv_lhs => rw [← List.take_append_drop (l' + 1 - f) (s.data.drop f)]
    rw [List.drop_drop]
    congr 2
    omega
  · have h1 : ((f : Int)).toNat = f := Int.toNat_natCast f
    have h2 : (((l' : Int)) + 1 - (f : Int)).toNat = l' + 1 - f := by omega
    have hcond : ((f : Int) ≠ -1 ∧ (l' : Int) + 1 > (f : Int)) := by
      constructor
      · omega
      · omega
    simp only [extract_json_from_text, extractFromString, pyFind, pyRFind, hf, hl]
    rw [if_pos hcond, h1, h2]
  · exact findChar_not_mem_take hf
  · exact rfindChar_not_mem_drop hl
  · obtain ⟨hh, heq⟩ := List.getElem?_eq_some_iff.mp (findChar_getElem hf)
    rw [List.drop_eq_getElem_cons hh, heq,
      show l' + 1 - f = (l' - f) + 1 from by omega, List.take_succ_cons]
    simp
  · rw [List.getLast?_eq_getElem?]
    have hlen : ((s.data.drop f).take (l' + 1 - f)).length = l' + 1 - f := by
      rw [List.length_take, List.length_drop]
      omega
    rw [hlen, List.getElem?_take_of_lt (by omega), List.getElem?_drop,
      show f + (l' + 1 - f - 1) = l' from by omega]
    exact rfindChar_getElem hl

theorem extract_no_braces (s : String) (h1 : '{' ∉ s.data) :
    extract_json_from_text (.pstr s) = .pstr s := by
  have hf : findChar s.data '{' = none := (findChar_eq_none_iff _ _).mpr h1
  simp [extract_json_from_text, extractFromString, pyFind, hf]

theorem extract_no_span (s : String)
    (h : ∀ i, i < s.data.length → ∀ j, j < s.data.length → i < j →
      ¬(s.data[i]? = some '{' ∧ s.data[j]? = some '}')) :
    extract_json_from_text (.pstr s) = .pstr s := by
  cases hf : findChar s.data '{' with
  | none =>
    have hpf : pyFind s '{' = -1 := by simp [pyFind, hf]
    simp [extract_json_from_text, extractFromString, hpf]
  | some f =>
    have hpf : pyFind s '{' = (f : Int) := by simp [pyFind, hf]
    cases hl : rfindChar s.data '}' with
    | none =>
      have hpr : pyRFind s '}' = -1 := by simp [pyRFind, hl]
      simp only [extract_json_from_text, extractFromString, hpf, hpr]
      rw [if_neg]
      intro hcond
      omega
    | some l' =>
      have hfg := findChar_getElem hf
      have hlg := rfindChar_getElem hl
      have hflen : f < s.data.length := (List.getElem?_eq_some_iff.mp hfg).1
      have hllen : l' < s.data.length := (List.getElem?_eq_some_iff.mp hlg).1
      have hne : f ≠ l' := by
        intro he
        rw [he, hlg] at hfg
        simp at hfg
      have hnlt : ¬ f < l' := by
        intro hlt
        exact h f hflen l' hllen hlt ⟨hfg, hlg⟩
      have hpr : pyRFind s '}' = (l' : Int) := by simp [pyRFind, hl]
      simp only [extract_json_from_text, extractFromString, hpf, hpr]
      rw [if_neg]
      intro hcond
      omega


theorem digitChar_injOn : ∀ a : Nat, a < 10 → ∀ b : Nat, b < 10 →
    Nat.digitChar a = Nat.digitChar b → a = b := by decide

theorem strftimeCompact_inj {d1 d2 : PyDatetime} (h1 : d1.valid) (h2 : d2.valid)
    (h : strftimeCompact d1 = strftimeCompact d2) : d1 = d2 := by
  obtain ⟨c1, c2, c3, c4, c5, c6, c7, c8, c9⟩ := h1
  obtain ⟨e1, e2, e3, e4, e5, e6, e7, e8, e9⟩ := h2
  have hdata := congrArg String.data h
  simp only [strftimeCompact, pad4, pad2, List.cons_append, List.nil_append,
    List.cons.injEq, and_true, true_and] at hdata
  obtain ⟨g1, g2, g3, g4, g5, g6, g7, g8, g9, g10, g11, g12, g13, g14⟩ := hdata
  have hy : d1.year = d2.year := by
    have i1 := digitChar_injOn _ (by omega) _ (by omega) g1
    have i2 := digitChar_injOn _ (by omega) _ (by omega) g2
    have i3 := digitChar_injOn _ (by omega) _ (by omega) g3
    have i4 := digitChar_injOn _ (by omega) _ (by omega) g4
    omega
  have hmo : d1.month = d2.month := by
    have i1 := digitChar_injOn _ (by omega) _ (by omega) g5
    have i2 := digitChar_injOn _ (by omega) _ (by omega) g6
    omega
  have hd : d1.day = d2.day := by
    have i1 := digitChar_injOn _ (by omega) _ (by omega) g7
    have i2 := digitChar_injOn _ (by omega) _ (by omega) g8
    omega
  have hh : d1.hour = d2.hour := by
    have i1 := digitChar_injOn _ (by omega) _ (by omega) g9
    have i2 := digitChar_injOn _ (by omega) _ (by omega) g10
    omega
  have hmi : d1.minute = d2.minute := by
    have i1 := digitChar_injOn _ (by omega) _ (by omega) g11
    have i2 := digitChar_injOn _ (by omega) _ (by omega) g12
    omega
  have hs : d1.second = d2.second := by
    have i1 := digitChar_injOn _ (by omega) _ (by omega) g13
    have i2 := digitChar_injOn _ (by omega) _ (by omega) g14
    omega
  cases d1
  cases d2
  simp_all

theorem generatedSessionId_inj {d1 d2 : PyDatetime} (h1 : d1.valid) (h2 : d2.valid)
    (h : generatedSessionId d1 = generatedSessionId d2) : d1 = d2 := by
  apply strftimeCompact_inj h1 h2
  have hdata := congrArg String.data h
  simp only [generatedSessionId, String.data_append] at hdata
  exact String.ext (List.append_cancel_left hdata)


theorem streamLoop_append (jd : String → Option EventDict) (xs ys : List String) :
    ∀ acc, streamLoop jd (xs ++ ys) acc =
      ((streamLoop jd xs acc).1 ++ (streamLoop jd ys (streamLoop jd xs acc).2).1,
       (streamLoop jd ys (streamLoop jd xs acc).2).2) := by
  induction xs with
  | nil => intro acc; simp [streamLoop]
  | cons line rest ih =>
    intro acc
    simp only [List.cons_append, streamLoop]
    by_cases he : line = ""
    · simp only [if_pos he]
      exact ih acc
    · by_cases hp : pyStartsWith line "data: "
      · simp only [if_neg he, if_pos hp]
        cases hjd : jd (line.drop 6) with
        | none => exact ih acc
        | some d => simp [ih]
      · simp only [if_neg he, if_neg hp]
        exact ih acc

theorem streamLoop_snd_of_no_complete (jd : String → Option EventDict)
    (lines : List String) :
    ∀ acc, (∀ d ∈ (streamLoop jd lines acc).1, d.type ≠ some "streaming_complete") →
      (streamLoop jd lines acc).2 = acc := by
  induction lines with
  | nil => intro acc _; rfl
  | cons line rest ih =>
    intro acc h
    rw [streamLoop] at h ⊢
    by_cases he : line = ""
    · rw [if_pos he] at h ⊢
      exact ih acc h
    · by_cases hp : pyStartsWith line "data: "
      · rw [if_neg he, if_pos hp] at h ⊢
        cases hjd : jd (line.drop 6) with
        | none =>
          rw [hjd] at h
          exact ih acc h
        | some d =>
          rw [hjd] at h
          dsimp only [] at h ⊢
          simp only [List.mem_cons] at h
          have hd : d.type ≠ some "streaming_complete" := h d (Or.inl rfl)
          simp only [if_neg hd] at h ⊢
          exact ih acc (fun x hx => h x (Or.inr hx))
      · rw [if_neg he, if_neg hp] at h ⊢
        exact ih acc h

theorem streamLoop_malformed_cons (jd : String → Option EventDict)
    (L : String) (after : List String) (acc : Option String)
    (hpre : pyStartsWith L "data: " = true) (hdec : jd (L.drop 6) = none) :
    streamLoop jd (L :: after) acc = streamLoop jd after acc := by
  have hne : L ≠ "" := by
    intro h
    rw [h] at hpre
    exact absurd hpre (by decide)
  rw [streamLoop, if_neg hne, if_pos hpre, hdec]


/-- Events drawn from the remote vocabulary are never stage-boundary
markers, so the boundary filter drops all of them. -/
theorem filter_boundary_eq_nil {l : List EventDict} (h : usesRemoteVocabulary l) :
    l.filter isNodeBoundary = [] := by
  rw [List.filter_eq_nil_iff]
  intro d hd
  have hmem := h d hd
  simp only [remoteVocab, List.map_cons, List.map_nil, List.mem_cons,
    List.not_mem_nil, or_false] at hmem
  rcases hmem with h1 | h1 | h1 | h1 | h1 <;>
    simp [isNodeBoundary, h1]

@[simp] theorem isNodeBoundary_nodeStart (a s : String) :
    isNodeBoundary (nodeStartEvent a s) = true := rfl

@[simp] theorem isNodeBoundary_nodeComplete (a s : String) (r : Option String) :
    isNodeBoundary (nodeCompleteEvent a s r) = true := rfl


/-!
Claim theorems.
-/

/-- C2: in every consultation in which all three stages complete successfully
(each agent stream yields a final result) and the remote agents use the
remote event vocabulary of the external interface, the emitted event stream
restricted to stage-boundary events is exactly one `node_start` and one
`node_complete` per stage, in the order financial, portfolio, risk; in
particular stage k+1's `node_start` comes after stage k's `node_complete`. -/
theorem successful_run_node_boundary_order (env : Env) (ui : Val)
    (sid : Option String) (now : PyDatetime) (r1 r2 r3 : String)
    (hfv : usesRemoteVocabulary (call_agent_with_streaming env.jsonDecode env.financial_lines).1)
    (hpv : usesRemoteVocabulary (call_agent_with_streaming env.jsonDecode env.portfolio_lines).1)
    (hrv : usesRemoteVocabulary (call_agent_with_streaming env.jsonDecode env.risk_lines).1)
    (h1 : (call_agent_with_streaming env.jsonDecode env.financial_lines).2 = some r1)
    (h2 : (call_agent_with_streaming env.jsonDecode env.portfolio_lines).2 = some r2)
    (h3 : (call_agent_with_streaming env.jsonDecode env.risk_lines).2 = some r3) :
    (run_consultation env ui sid now).events.filter isNodeBoundary =
      [nodeStartEvent "financial" (effectiveSessionId sid now),
       nodeCompleteEvent "financial" (effectiveSessionId sid now) (some r1),
       nodeStartEvent "portfolio" (effectiveSessionId sid now),
       nodeCompleteEvent "portfolio" (effectiveSessionId sid now) (some r2),
       nodeStartEvent "risk" (effectiveSessionId sid now),
       nodeCompleteEvent "risk" (effectiveSessionId sid now) (some r3)] := by
  simp only [run_consultation, create_graph_run, financial_node, portfolio_node, risk_node]
  simp only [h1, h2, h3]
  simp [List.filter_append, List.filter_cons, filter_boundary_eq_nil hfv,
    filter_boundary_eq_nil hpv, filter_boundary_eq_nil hrv]

/-- Witness for C2 at a concrete environment in which every stage completes
with result `"RES"`. -/
theorem successful_run_node_boundary_order_witness :
    (run_consultation envAllComplete (Val.vDict "d") (some "sid") nowFixture).events.filter
        isNodeBoundary =
      [nodeStartEvent "financial" (effectiveSessionId (some "sid") nowFixture),
       nodeCompleteEvent "financial" (effectiveSessionId (some "sid") nowFixture) (some "RES"),
       nodeStartEvent "portfolio" (effectiveSessionId (some "sid") nowFixture),
       nodeCompleteEvent "portfolio" (effectiveSessionId (some "sid") nowFixture) (some "RES"),
       nodeStartEvent "risk" (effectiveSessionId (some "sid") nowFixture),
       nodeCompleteEvent "risk" (effectiveSessionId (some "sid") nowFixture) (some "RES")] :=
  successful_run_node_boundary_order envAllComplete (Val.vDict "d") (some "sid") nowFixture
    "RES" "RES" "RES" (by decide) (by decide) (by decide) (by decide) (by decide) (by decide)

/-- C8: when the stage produced no final result (`agent_result` is `None`),
`save_to_memory` returns before reaching the Memory Service: no append call
is made for that stage. -/
theorem absent_result_skips_memory_write (memory_id : Option String)
    (session_id agent_type : String) (user_input : Val) (service_raises : Bool) :
    save_to_memory memory_id session_id agent_type user_input none service_raises =
      .skipped := by
  simp [save_to_memory, pyTruthy]



/-- C6 (amended): every record appended after a stage completes consists of
exactly two turns: a synthetic user turn whose text is the stage name, a
space, `"analysis request: "`, and the serialized input, and a synthetic
assistant turn whose text is the stage name, `" result: "`, and the output. -/
theorem memory_event_two_turns (memory_id : Option String)
    (session_id agent_type : String) (user_input : Val) (s : String)
    (service_raises : Bool) (r : MemoryRecord)
    (h : save_to_memory memory_id session_id agent_type user_input (some s)
      service_raises = .saved r) :
    r.messages =
      [(agent_type ++ " analysis request: " ++ inputText user_input, "USER"),
       (agent_type ++ " result: " ++ s, "ASSISTANT")] := by
  simp only [save_to_memory] at h
  split at h
  · exact absurd h (by simp)
  · split at h
    · exact absurd h (by simp)
    · simp only [MemoryOutcome.saved.injEq] at h
      subst h
      rfl

/-- Witness for the amended C6 at a concrete saved record. -/
theorem memory_event_two_turns_witness :
    ∃ r : MemoryRecord,
      save_to_memory (some "mem") "sid" "financial" (.vStr "input") (some "out")
        false = .saved r ∧
      r.messages =
        [("financial analysis request: input", "USER"),
         ("financial result: out", "ASSISTANT")] := by
  refine ⟨{ memory_id := "mem", actor_id := "fund_user", session_id := "sid",
            messages := [("financial analysis request: input", "USER"),
                         ("financial result: out", "ASSISTANT")] }, by decide, ?_⟩
  exact memory_event_two_turns (some "mem") "sid" "financial" (.vStr "input") "out"
    false _ (by decide)

/-- Counterexample to C6 as stated: the user turn written for stage
`financial` with input `"x"` is `"financial analysis request: x"` — the stage
name is followed by a space, not immediately by `"analysis request: "` as the
claim asserts. -/
theorem memory_event_text_format_cex :
    save_to_memory (some "mem") "sid" "financial" (.vStr "x") (some "r") false =
      .saved
        { memory_id := "mem", actor_id := "fund_user", session_id := "sid",
          messages := [("financial analysis request: x", "USER"),
                       ("financial result: r", "ASSISTANT")] } ∧
    "financial analysis request: x" ≠ "financial" ++ "analysis request: " ++ "x" := by
  constructor
  · decide
  · decide

/-- C5: the memory input of stage financial is the external user request; the
memory input of stage portfolio is exactly financial's result (the value in
financial's `node_complete` event, which is the last event financial emits);
the memory input of stage risk is exactly portfolio's result. -/
theorem stage_inputs_thread_results (env : Env) (ui : Val) (sid : Option String)
    (now : PyDatetime) :
    (run_consultation env ui sid now).financial.memory_input = ui ∧
    (run_consultation env ui sid now).portfolio.memory_input =
      valOfResult (run_consultation env ui sid now).financial.result ∧
    (run_consultation env ui sid now).risk.memory_input =
      valOfResult (run_consultation env ui sid now).portfolio.result ∧
    (run_consultation env ui sid now).financial.events.getLast? =
      some (nodeCompleteEvent "financial" (effectiveSessionId sid now)
        (run_consultation env ui sid now).financial.result) ∧
    (run_consultation env ui sid now).portfolio.events.getLast? =
      some (nodeCompleteEvent "portfolio" (effectiveSessionId sid now)
        (run_consultation env ui sid now).portfolio.result) := by
  refine ⟨rfl, rfl, rfl, ?_, ?_⟩ <;>
    simp only [run_consultation, create_graph_run, financial_node, portfolio_node,
      risk_node] <;>
    rw [← List.cons_append, List.getLast?_concat]



/-- C4: a Memory Service exception in any combination of stages is caught
inside `save_to_memory` and changes nothing observable: the event stream and
the final state equal those of the failure-free run (so the consultation
proceeds through all stages and no error event is attributable to the memory
failure), and each stage's memory outcome differs from the failure-free one
only by the failed write itself. -/
theorem memory_write_failure_never_propagates (env : Env) (ui : Val)
    (sid : Option String) (now : PyDatetime) (f1 f2 f3 : Bool) :
    (run_consultation (withMemFlags env f1 f2 f3) ui sid now).events =
      (run_consultation (withMemFlags env false false false) ui sid now).events ∧
    (run_consultation (withMemFlags env f1 f2 f3) ui sid now).state =
      (run_consultation (withMemFlags env false false false) ui sid now).state ∧
    (run_consultation (withMemFlags env f1 f2 f3) ui sid now).financial.memory =
      (if f1 then
        markFailed (run_consultation (withMemFlags env false false false) ui sid now).financial.memory
      else (run_consultation (withMemFlags env false false false) ui sid now).financial.memory) ∧
    (run_consultation (withMemFlags env f1 f2 f3) ui sid now).portfolio.memory =
      (if f2 then
        markFailed (run_consultation (withMemFlags env false false false) ui sid now).portfolio.memory
      else (run_consultation (withMemFlags env false false false) ui sid now).portfolio.memory) ∧
    (run_consultation (withMemFlags env f1 f2 f3) ui sid now).risk.memory =
      (if f3 then
        markFailed (run_consultation (withMemFlags env false false false) ui sid now).risk.memory
      else (run_consultation (withMemFlags env false false false) ui sid now).risk.memory) := by
  refine ⟨rfl, rfl, ?_, ?_, ?_⟩ <;>
    · simp only [run_consultation, create_graph_run, financial_node, portfolio_node,
        risk_node, withMemFlags, save_to_memory]
      split_ifs <;> simp_all [markFailed]



/-- C1 (amended): when the portfolio agent stream emits an `error` event and
no completion event, the error event is forwarded to the caller but the Stage
Graph still proceeds: portfolio's `node_complete` carries a null result, the
risk stage still runs (its `node_start`/`node_complete` are emitted after
portfolio's), and the overall stream ends with risk's `node_complete`, not
with the error event. -/
theorem portfolio_error_continues_to_risk (env : Env) (ui : Val)
    (sid : Option String) (now : PyDatetime)
    (hfv : usesRemoteVocabulary (call_agent_with_streaming env.jsonDecode env.financial_lines).1)
    (hpv : usesRemoteVocabulary (call_agent_with_streaming env.jsonDecode env.portfolio_lines).1)
    (hrv : usesRemoteVocabulary (call_agent_with_streaming env.jsonDecode env.risk_lines).1)
    (herr : ∃ d ∈ (call_agent_with_streaming env.jsonDecode env.portfolio_lines).1,
      d.type = some "error")
    (hnc : ∀ d ∈ (call_agent_with_streaming env.jsonDecode env.portfolio_lines).1,
      d.type ≠ some "streaming_complete") :
    ((run_consultation env ui sid now).events.filter isNodeBoundary =
      [nodeStartEvent "financial" (effectiveSessionId sid now),
       nodeCompleteEvent "financial" (effectiveSessionId sid now)
         (call_agent_with_streaming env.jsonDecode env.financial_lines).2,
       nodeStartEvent "portfolio" (effectiveSessionId sid now),
       nodeCompleteEvent "portfolio" (effectiveSessionId sid now) none,
       nodeStartEvent "risk" (effectiveSessionId sid now),
       nodeCompleteEvent "risk" (effectiveSessionId sid now)
         (call_agent_with_streaming env.jsonDecode env.risk_lines).2]) ∧
    (∃ d ∈ (run_consultation env ui sid now).events, d.type = some "error") ∧
    ((run_consultation env ui sid now).events.getLast? =
      some (nodeCompleteEvent "risk" (effectiveSessionId sid now)
        (call_agent_with_streaming env.jsonDecode env.risk_lines).2)) := by
  have hpres : (call_agent_with_streaming env.jsonDecode env.portfolio_lines).2 = none :=
    streamLoop_snd_of_no_complete env.jsonDecode env.portfolio_lines none hnc
  refine ⟨?_, ?_, ?_⟩
  · simp only [run_consultation, create_graph_run, financial_node, portfolio_node,
      risk_node]
    simp only [hpres]
    simp [List.filter_append, List.filter_cons, filter_boundary_eq_nil hfv,
      filter_boundary_eq_nil hpv, filter_boundary_eq_nil hrv]
  · rcases herr with ⟨d, hd, hdt⟩
    refine ⟨d, ?_, hdt⟩
    simp only [run_consultation, create_graph_run, financial_node, portfolio_node,
      risk_node]
    simp [List.mem_append, hd]
  · simp only [run_consultation, create_graph_run, financial_node, portfolio_node,
      risk_node]
    have hshape : ∀ (a : EventDict) (w : List EventDict) (c : EventDict),
        (a :: (w ++ [c])).getLast? = some c := fun a w c => by
      rw [← List.cons_append, List.getLast?_concat]
    rw [List.getLast?_append, hshape]
    rfl



/-- Counterexample to C1 as stated: in a concrete consultation whose
portfolio agent emits one `error` event and no completion, the Stage Graph
still emits `node_start` and `node_complete` for `risk`, and the overall
stream ends with risk's `node_complete`, not with the `error` event. -/
theorem portfolio_error_failfast_cex :
    (∃ d ∈ (call_agent_with_streaming envPortfolioError.jsonDecode
        envPortfolioError.portfolio_lines).1, d.type = some "error") ∧
    (∀ d ∈ (call_agent_with_streaming envPortfolioError.jsonDecode
        envPortfolioError.portfolio_lines).1, d.type ≠ some "streaming_complete") ∧
    nodeStartEvent "risk" "s" ∈
      (run_consultation envPortfolioError (Val.vDict "d") (some "s") nowFixture).events ∧
    nodeCompleteEvent "risk" "s" (some "RES") ∈
      (run_consultation envPortfolioError (Val.vDict "d") (some "s") nowFixture).events ∧
    (run_consultation envPortfolioError (Val.vDict "d") (some "s") nowFixture).events.getLast? =
      some (nodeCompleteEvent "risk" "s" (some "RES")) ∧
    (run_consultation envPortfolioError (Val.vDict "d") (some "s") nowFixture).events.getLast? ≠
      some errorRecord := by
  decide

/-- Witness for the amended C1 at the same concrete environment. -/
theorem portfolio_error_continues_to_risk_witness :
    (run_consultation envPortfolioError (Val.vDict "d") (some "s") nowFixture).events.filter
        isNodeBoundary =
      [nodeStartEvent "financial" (effectiveSessionId (some "s") nowFixture),
       nodeCompleteEvent "financial" (effectiveSessionId (some "s") nowFixture)
         (call_agent_with_streaming envPortfolioError.jsonDecode
           envPortfolioError.financial_lines).2,
       nodeStartEvent "portfolio" (effectiveSessionId (some "s") nowFixture),
       nodeCompleteEvent "portfolio" (effectiveSessionId (some "s") nowFixture) none,
       nodeStartEvent "risk" (effectiveSessionId (some "s") nowFixture),
       nodeCompleteEvent "risk" (effectiveSessionId (some "s") nowFixture)
         (call_agent_with_streaming envPortfolioError.jsonDecode
           envPortfolioError.risk_lines).2] :=
  (portfolio_error_continues_to_risk envPortfolioError (Val.vDict "d") (some "s")
    nowFixture (by decide) (by decide) (by decide) (by decide) (by decide)).1

/-- C7: a stream line whose payload fails to decode as JSON is skipped
without aborting the stream: the Agent Client produces exactly the forwarded
events and final result of the same stream without that line, so every
well-formed record before and after it is still forwarded. -/
theorem malformed_stream_line_skipped (jsonDecode : String → Option EventDict)
    (before after : List String) (line : String)
    (hpre : pyStartsWith line "data: " = true)
    (hdec : jsonDecode (line.drop 6) = none) :
    call_agent_with_streaming jsonDecode (before ++ line :: after) =
      call_agent_with_streaming jsonDecode (before ++ after) := by
  unfold call_agent_with_streaming
  rw [streamLoop_append, streamLoop_append,
    streamLoop_malformed_cons jsonDecode line after _ hpre hdec]

/-- Witness for C7: dropping the undecodable line `"data: oops"` leaves the
forwarded records and result of the surrounding well-formed lines intact. -/
theorem malformed_stream_line_skipped_witness :
    call_agent_with_streaming decodeFixture ["data: T", "data: oops", "data: C"] =
      call_agent_with_streaming decodeFixture ["data: T", "data: C"] ∧
    call_agent_with_streaming decodeFixture ["data: T", "data: C"] =
      ([chunkRecord, completeRecord], some "RES") :=
  ⟨malformed_stream_line_skipped decodeFixture ["data: T"] ["data: C"] "data: oops"
    (by decide) (by decide), by decide⟩



/-- C9: a consultation invoked without a truthy session id uses the generated
identifier `"session_"` followed by the `%Y%m%d_%H%M%S` rendering of the
current wall clock, and two identifiers generated from clock readings more
than one second apart (clock readings truncate the instant, in milliseconds,
to whole seconds) are distinct. -/
theorem session_id_generation :
    (∀ (env : Env) (ui : Val) (sid : Option String) (now : PyDatetime),
      pyTruthy sid = false →
      (run_consultation env ui sid now).state.session_id =
        "session_" ++ strftimeCompact now) ∧
    (∀ (ms1 ms2 : Nat) (dt1 dt2 : PyDatetime),
      dt1.valid → dt2.valid →
      epochSeconds dt1 = ms1 / 1000 → epochSeconds dt2 = ms2 / 1000 →
      (ms1 + 1000 < ms2 ∨ ms2 + 1000 < ms1) →
      generatedSessionId dt1 ≠ generatedSessionId dt2) := by
  constructor
  · intro env ui sid now h
    simp [run_consultation, create_graph_run, financial_node, portfolio_node,
      risk_node, effectiveSessionId, h, generatedSessionId]
  · intro ms1 ms2 dt1 dt2 hv1 hv2 h1 h2 hapart heq
    have hdt := generatedSessionId_inj hv1 hv2 heq
    subst hdt
    omega

/-- Witness for C9: a run without session id uses the generated identifier,
and two clock readings 2.001 seconds apart give distinct identifiers. -/
theorem session_id_generation_witness :
    (run_consultation envAllComplete (Val.vDict "d") none nowFixture).state.session_id =
      "session_" ++ strftimeCompact nowFixture ∧
    generatedSessionId ⟨1970, 1, 1, 0, 0, 0⟩ ≠ generatedSessionId ⟨1970, 1, 1, 0, 0, 2⟩ :=
  ⟨session_id_generation.1 envAllComplete (Val.vDict "d") none nowFixture (by decide),
   session_id_generation.2 62162035200000 62162035202001 ⟨1970, 1, 1, 0, 0, 0⟩
     ⟨1970, 1, 1, 0, 0, 2⟩ (by decide) (by decide) (by decide) (by decide)
     (Or.inl (by decide))⟩

/-- C3: on any string containing a `{` with a `}` somewhere after it,
extraction returns exactly the span from the first `{` to the last `}`
inclusive: the input splits as `pre ++ core ++ post` with no `{` in `pre`,
no `}` in `post`, `core` delimited by braces, and the result exactly
`String.mk core`; on any string with no braces the input is returned
unchanged. -/
theorem extract_json_first_to_last_brace (s : String) :
    ((∃ i j : Nat, i < j ∧ s.data[i]? = some '{' ∧ s.data[j]? = some '}') →
      ∃ pre core post : List Char,
        s.data = pre ++ core ++ post ∧
        extract_json_from_text (.pstr s) = .pstr (String.mk core) ∧
        '{' ∉ pre ∧ '}' ∉ post ∧
        core.head? = some '{' ∧ core.getLast? = some '}') ∧
    (('{' ∉ s.data ∧ '}' ∉ s.data) → extract_json_from_text (.pstr s) = .pstr s) :=
  ⟨extract_brace_span s, fun h => extract_no_braces s h.1⟩

/-- Witness for C3 at the spec's example string and a braceless string. -/
theorem extract_json_first_to_last_brace_witness :
    extract_json_from_text (.pstr "Here is the answer: \x7b\"a\":1\x7d Thanks!") =
      .pstr "\x7b\"a\":1\x7d" ∧
    (∃ pre core post : List Char,
      ("Here is the answer: \x7b\"a\":1\x7d Thanks!").data = pre ++ core ++ post ∧
      extract_json_from_text (.pstr "Here is the answer: \x7b\"a\":1\x7d Thanks!") =
        .pstr (String.mk core) ∧
      '{' ∉ pre ∧ '}' ∉ post ∧ core.head? = some '{' ∧ core.getLast? = some '}') ∧
    extract_json_from_text (.pstr "no braces at all") = .pstr "no braces at all" :=
  ⟨by decide,
   (extract_json_first_to_last_brace _).1 ⟨20, 26, by decide, by decide, by decide⟩,
   (extract_json_first_to_last_brace _).2 ⟨by decide, by decide⟩⟩

/-- C10: extraction is total and acts as the identity outside the brace-span
case: a non-string input is returned unchanged, and a string with no index
pair `i < j` holding `'{'` at `i` and `'}'` at `j` (in particular whenever
the last `}` does not lie strictly after the first `{`) is returned
unchanged — never an empty or truncated span. -/
theorem extract_unchanged_without_span :
    (∀ obj : String, extract_json_from_text (.other obj) = .other obj) ∧
    (∀ s : String,
      (∀ i, i < s.data.length → ∀ j, j < s.data.length → i < j →
        ¬(s.data[i]? = some '{' ∧ s.data[j]? = some '}')) →
      extract_json_from_text (.pstr s) = .pstr s) := by
  constructor
  · intro obj
    rfl
  · intro s h
    exact extract_no_span s h

/-- Witness for C10 at a non-string value and at `"} text {"`. -/
theorem extract_unchanged_without_span_witness :
    extract_json_from_text (.other "12345") = .other "12345" ∧
    extract_json_from_text (.pstr "\x7d text \x7b") = .pstr "\x7d text \x7b" :=
  ⟨extract_unchanged_without_span.1 "12345",
   extract_unchanged_without_span.2 "\x7d text \x7b" (by decide)⟩

end FundManagerSpec
